import Mathlib

/-!
Verification development for the email-classification review system.

This file gives a shallow embedding of the core components of the
repository (the output validator and prompt builder in
`backend/llm/prompt.py`, the email / classification CRUD layer in
`backend/db/crud.py`, and the model-list cache in
`backend/llm/client.py`), together with theorems settling the frozen
claims about them.

Conventions of the embedding:
* Python / JSON numbers are modelled as rationals (`ℚ`).  Arithmetic on
  them is written with small helper functions (`qAdd`, `qMul`, ...)
  built on `Rat.divInt` so that every definition evaluates inside the
  kernel; the helpers are proved equal to the ordinary field operations.
  The special float literals `NaN` / `Infinity` accepted by Python's
  `json` module are not representable and are treated as parse errors;
  no claim under consideration depends on them.
* Python dictionaries are modelled as association lists in insertion
  order; `d[k] = v` updates the first entry with key `k` in place and
  appends otherwise, exactly like CPython dict assignment.
* Exceptions are modelled with `Except`.
* Recursion that is not structural in the source is written with an
  explicit fuel argument; callers always supply enough fuel (at least
  the input length), so the out-of-fuel branches are unreachable.
-/

/-- Model of a parsed JSON value (the values produced by Python's
`json.loads`): `null`, booleans, numbers, strings, arrays and objects.
Objects are association lists in insertion order. -/
inductive JValue where
  | null : JValue
  | bool (b : Bool) : JValue
  | num (q : ℚ) : JValue
  | str (s : String) : JValue
  | arr (elems : List JValue) : JValue
  | obj (members : List (String × JValue)) : JValue

/-- Python dictionary read `d.get(k)` / `d[k]` on an association list:
returns the value of the first entry with the given key. -/
def dictGet (d : List (String × JValue)) (k : String) : Option JValue :=
  match d with
  | [] => none
  | (k1, v) :: rest => if k1 = k then some v else dictGet rest k

/-- Python dictionary write `d[k] = v`: replaces the value of the first
entry with key `k` in place, or appends a new entry at the end (CPython
insertion-order semantics). -/
def dictSet (d : List (String × JValue)) (k : String) (v : JValue) :
    List (String × JValue) :=
  match d with
  | [] => [(k, v)]
  | (k1, v1) :: rest =>
    if k1 = k then (k1, v) :: rest else (k1, v1) :: dictSet rest k v

/-- Python truthiness `bool(x)` on a JSON value: `None`/`False`/`0`/empty
string/empty list/empty dict are falsy, everything else truthy. -/
def pyTruthy : JValue → Bool
  | .null => false
  | .bool b => b
  | .num q => decide (q ≠ 0)
  | .str s => decide (s ≠ "")
  | .arr xs => !xs.isEmpty
  | .obj kvs => !kvs.isEmpty

/-! Kernel-evaluable rational arithmetic.  `Rat.divInt` normalizes with
`Nat.gcd`, which the kernel can compute, so all helpers below reduce on
closed inputs. -/

/-- Rational addition via `Rat.divInt` (kernel-evaluable). -/
def qAdd (a b : ℚ) : ℚ := Rat.divInt (a.num * b.den + b.num * a.den) (a.den * b.den)

/-- Rational multiplication via `Rat.divInt` (kernel-evaluable). -/
def qMul (a b : ℚ) : ℚ := Rat.divInt (a.num * b.num) (a.den * b.den)

/-- Rational division via `Rat.divInt` (kernel-evaluable). -/
def qDiv (a b : ℚ) : ℚ := Rat.divInt (a.num * b.den) (a.den * b.num)

/-- Rational negation via `Rat.divInt` (kernel-evaluable). -/
def qNeg (a : ℚ) : ℚ := Rat.divInt (-a.num) a.den

/-- Embedding of a natural number as a rational (kernel-evaluable). -/
def qOfNat (n : Nat) : ℚ := Rat.divInt n 1

/-- Powers of ten as natural numbers. -/
def pow10 : Nat → Nat
  | 0 => 1
  | k + 1 => 10 * pow10 k

/-- Python `min` of two rationals (returns the first argument on ties). -/
def minQ (a b : ℚ) : ℚ := if b < a then b else a

/-- Python `max` of two rationals (returns the first argument on ties). -/
def maxQ (a b : ℚ) : ℚ := if a < b then b else a

/-! Model of Python's `json.loads` (strict mode). -/

/-- JSON whitespace characters skipped by `json.loads` between tokens. -/
def isJsonWs (c : Char) : Bool :=
  c = ' ' || c = '\t' || c = '\n' || c = '\r'

/-- Drop leading JSON whitespace. -/
def skipWs (cs : List Char) : List Char :=
  cs.dropWhile isJsonWs

/-- Hex digit value, used for `\uXXXX` escapes. -/
def hexVal (c : Char) : Option Nat :=
  if '0' ≤ c ∧ c ≤ '9' then some (c.toNat - '0'.toNat)
  else if 'a' ≤ c ∧ c ≤ 'f' then some (c.toNat - 'a'.toNat + 10)
  else if 'A' ≤ c ∧ c ≤ 'F' then some (c.toNat - 'A'.toNat + 10)
  else none

/-- Body of a JSON string literal, after the opening quote: reads
characters and escape sequences up to the closing quote, rejecting raw
control characters as `json.loads` does.  Returns the decoded string and
the remaining input. -/
def parseStringBody (acc : List Char) : List Char → Except String (String × List Char)
  | [] => .error "unterminated string"
  | '"' :: rest => .ok (String.mk acc.reverse, rest)
  | '\\' :: 'u' :: h1 :: h2 :: h3 :: h4 :: rest =>
    match hexVal h1, hexVal h2, hexVal h3, hexVal h4 with
    | some a, some b, some c, some d =>
      parseStringBody (Char.ofNat (((a * 16 + b) * 16 + c) * 16 + d) :: acc) rest
    | _, _, _, _ => .error "invalid unicode escape"
  | '\\' :: e :: rest =>
    if e = '"' then parseStringBody ('"' :: acc) rest
    else if e = '\\' then parseStringBody ('\\' :: acc) rest
    else if e = '/' then parseStringBody ('/' :: acc) rest
    else if e = 'b' then parseStringBody ('\x08' :: acc) rest
    else if e = 'f' then parseStringBody ('\x0c' :: acc) rest
    else if e = 'n' then parseStringBody ('\n' :: acc) rest
    else if e = 'r' then parseStringBody ('\r' :: acc) rest
    else if e = 't' then parseStringBody ('\t' :: acc) rest
    else .error "invalid escape"
  | c :: rest =>
    if c.toNat < 0x20 then .error "invalid control character"
    else parseStringBody (c :: acc) rest

/-- Numeric value of a list of decimal digit characters. -/
def digitsToNat (ds : List Char) : Nat :=
  ds.foldl (fun n c => n * 10 + (c.toNat - '0'.toNat)) 0

/-- Parse a JSON number per the grammar used by Python's `json` module:
sign, integer part (`0` or a nonzero-led digit run), optional fraction,
optional exponent.  Returns its exact value as a rational and the
remaining input; a malformed fraction or exponent is simply not consumed,
as with the regex used by `json.scanner`. -/
def parseNumber (cs : List Char) : Except String (ℚ × List Char) :=
  let (neg, cs1) :=
    match cs with
    | '-' :: r => (true, r)
    | _ => (false, cs)
  match cs1 with
  | c :: _ =>
    if c.isDigit then
      let (ipart, cs2) :=
        if c = '0' then ([c], cs1.tail) else cs1.span Char.isDigit
      let (fpart, cs3) :=
        match cs2 with
        | '.' :: r =>
          let (ds, r2) := r.span Char.isDigit
          if ds.isEmpty then ([], cs2) else (ds, r2)
        | _ => ([], cs2)
      let (epart, cs4) :=
        match cs3 with
        | e :: r =>
          if e = 'e' ∨ e = 'E' then
            let (esign, r1) :=
              match r with
              | '+' :: r2 => (true, r2)
              | '-' :: r2 => (false, r2)
              | _ => (true, r)
            let (ds, r2) := r1.span Char.isDigit
            if ds.isEmpty then (none, cs3) else (some (esign, digitsToNat ds), r2)
          else (none, cs3)
        | _ => (none, cs3)
      let base : ℚ := qAdd (qOfNat (digitsToNat ipart))
        (qDiv (qOfNat (digitsToNat fpart)) (qOfNat (pow10 fpart.length)))
      let scaled : ℚ :=
        match epart with
        | none => base
        | some (true, e) => qMul base (qOfNat (pow10 e))
        | some (false, e) => qDiv base (qOfNat (pow10 e))
      .ok ((if neg then qNeg scaled else scaled), cs4)
    else .error "expecting value"
  | [] => .error "expecting value"

/-- Work items of the JSON scanner: a value to parse, the remaining
members of an object, or the remaining elements of an array.  Using one
work-item type keeps the scanner a single structurally recursive
function, which the kernel can evaluate. -/
inductive PJob where
  | val (cs : List Char)
  | members (cs : List Char) (acc : List (String × JValue))
  | elems (cs : List Char) (acc : List JValue)

/-- One-pass recursive-descent JSON scanner mirroring `json.scanner`'s
`py_make_scanner`.  `fuel` bounds recursion depth; each recursive call
consumes at least one input character, so fuel of the input length plus
two never runs out.  Duplicate object keys overwrite the earlier value
in place, as dict construction does in CPython. -/
def parseStep : Nat → PJob → Except String (JValue × List Char)
  | 0, _ => .error "out of fuel"
  | _ + 1, .val [] => .error "expecting value"
  | fuel + 1, .val ('"' :: rest) =>
    match parseStringBody [] rest with
    | .ok (s, rest1) => .ok (.str s, rest1)
    | .error e => .error e
  | fuel + 1, .val ('\x7b' :: rest) =>
    (match skipWs rest with
    | '\x7d' :: r2 => .ok (.obj [], r2)
    | r1 => parseStep fuel (.members r1 []))
  | fuel + 1, .val ('[' :: rest) =>
    (match skipWs rest with
    | ']' :: r2 => .ok (.arr [], r2)
    | r1 => parseStep fuel (.elems r1 []))
  | _ + 1, .val ('t' :: 'r' :: 'u' :: 'e' :: rest) => .ok (.bool true, rest)
  | _ + 1, .val ('f' :: 'a' :: 'l' :: 's' :: 'e' :: rest) => .ok (.bool false, rest)
  | _ + 1, .val ('n' :: 'u' :: 'l' :: 'l' :: rest) => .ok (.null, rest)
  | _ + 1, .val cs =>
    (match parseNumber cs with
    | .ok (q, rest) => .ok (.num q, rest)
    | .error e => .error e)
  | fuel + 1, .members ('"' :: rest) acc =>
    (match parseStringBody [] rest with
    | .ok (key, r1) =>
      (match skipWs r1 with
      | ':' :: r2 =>
        (match parseStep fuel (.val (skipWs r2)) with
        | .ok (v, r3) =>
          (match skipWs r3 with
          | '\x7d' :: r4 => .ok (.obj (dictSet acc key v), r4)
          | ',' :: r4 => parseStep fuel (.members (skipWs r4) (dictSet acc key v))
          | _ => .error "expecting comma delimiter")
        | .error e => .error e)
      | _ => .error "expecting colon delimiter")
    | .error e => .error e)
  | _ + 1, .members _ _ => .error "expecting property name enclosed in double quotes"
  | fuel + 1, .elems cs acc =>
    (match parseStep fuel (.val cs) with
    | .ok (v, r1) =>
      (match skipWs r1 with
      | ']' :: r2 => .ok (.arr (acc ++ [v]), r2)
      | ',' :: r2 => parseStep fuel (.elems (skipWs r2) (acc ++ [v]))
      | _ => .error "expecting comma delimiter")
    | .error e => .error e)

/-- Model of Python's strict `json.loads`: skip leading whitespace,
parse one value, and require only whitespace to follow. -/
def jsonParse (cs : List Char) : Except String JValue :=
  match parseStep (cs.length + 2) (.val (skipWs cs)) with
  | .ok (v, rest) =>
    if (skipWs rest).isEmpty then .ok v else .error "extra data"
  | .error e => .error e

/-! Python value coercions used by the validator. -/

/-- Characters treated as whitespace by Python's `re` `\s` class and by
`float()` / `str.strip()` (ASCII range; unicode whitespace is not
modelled and no claim depends on it). -/
def isPyWs (c : Char) : Bool :=
  c = ' ' || c = '\t' || c = '\n' || c = '\r' || c = '\x0b' || c = '\x0c'

/-- Decimal rendering of a rational, approximating Python's `str()` on
the numbers produced by `json.loads`: integers render without a decimal
point, terminating decimals with one.  (CPython's shortest-repr float
algorithm and the int/float distinction are not modelled; no claim
exercises numeric rendering.) -/
def renderNum (q : ℚ) : String :=
  if q.den = 1 then toString q.num
  else
    match (List.range 40).find? (fun k => pow10 k % q.den = 0) with
    | some k =>
      let s := Nat.toDigits 10 (q.num.natAbs * (pow10 k / q.den))
      let s := List.replicate (k + 1 - s.length) '0' ++ s
      (if q.num < 0 then "-" else "") ++ String.mk (s.take (s.length - k)) ++ "." ++
        String.mk (s.drop (s.length - k))
    | none => toString q.num ++ "/" ++ toString q.den

/-- Python `repr()` of a JSON value (used by `str()` on containers):
`None`/`True`/`False`, single-quoted strings, bracketed lists, braced
dicts.  (String-escaping inside `repr` is not modelled; no claim
exercises it.) -/
def pyRepr : JValue → String
  | .null => "None"
  | .bool b => if b then "True" else "False"
  | .num q => renderNum q
  | .str s => "\x27" ++ s ++ "\x27"
  | .arr xs =>
    "[" ++ String.intercalate ", " (xs.attach.map (fun x => pyRepr x.1)) ++ "]"
  | .obj kvs =>
    "\x7b" ++ String.intercalate ", "
      (kvs.attach.map (fun x => "\x27" ++ x.1.1 ++ "\x27: " ++ pyRepr x.1.2)) ++ "\x7d"
decreasing_by
  · have := List.sizeOf_lt_of_mem x.2
    simp at *
    omega
  · have h1 := List.sizeOf_lt_of_mem x.2
    obtain ⟨⟨k, v⟩, hx⟩ := x
    simp [Prod.mk.sizeOf_spec] at *
    omega

/-- Python `str()` of a JSON value: strings are themselves, scalars and
containers via `repr`-style rendering. -/
def pyStr : JValue → String
  | .str s => s
  | .null => "None"
  | .bool b => if b then "True" else "False"
  | .num q => renderNum q
  | v => pyRepr v

/-- Python `float(s)` on a string: optional surrounding whitespace, an
optional sign, digits with optional fraction and exponent.  (The `inf` /
`nan` spellings and underscore separators are not modelled; they only
affect which strings parse, which no claim depends on.) -/
def parseFloatLit (s : String) : Option ℚ :=
  let cs := (((s.data.dropWhile isPyWs).reverse.dropWhile isPyWs).reverse)
  let (neg, cs1) :=
    match cs with
    | '-' :: r => (true, r)
    | '+' :: r => (false, r)
    | _ => (false, cs)
  let (ip, cs2) := cs1.span Char.isDigit
  let (fp, cs3) :=
    match cs2 with
    | '.' :: r => r.span Char.isDigit
    | _ => (([] : List Char), cs2)
  if ip.isEmpty && fp.isEmpty then none
  else
    let expPart : Option ((Bool × Nat) × List Char) :=
      match cs3 with
      | e :: r =>
        if e = 'e' ∨ e = 'E' then
          let (esign, r1) :=
            match r with
            | '+' :: r2 => (true, r2)
            | '-' :: r2 => (false, r2)
            | _ => (true, r)
          let (eds, r2) := r1.span Char.isDigit
          if eds.isEmpty then none else some ((esign, digitsToNat eds), r2)
        else some ((true, 0), cs3)
      | [] => some ((true, 0), [])
    match expPart with
    | none => none
    | some ((esign, e), rest) =>
      if rest.isEmpty then
        let base := qAdd (qOfNat (digitsToNat ip))
          (qDiv (qOfNat (digitsToNat fp)) (qOfNat (pow10 fp.length)))
        let scaled := if esign then qMul base (qOfNat (pow10 e))
          else qDiv base (qOfNat (pow10 e))
        some (if neg then qNeg scaled else scaled)
      else none

/-- Python `float(x)` on a JSON value: numbers pass through, booleans
become 0 or 1, strings are parsed; `None`, lists and dicts raise
`TypeError` (modelled as `none`). -/
def pyFloat : JValue → Option ℚ
  | .num q => some q
  | .bool b => some (if b then qOfNat 1 else qOfNat 0)
  | .str s => parseFloatLit s
  | _ => none

/-! The output validator (`PromptBuilder.validate_output`). -/

/-- Error kinds raised by `validate_output` (each is a `ValueError` in
the source; the constructor records which message family it carries). -/
inductive VError where
  | noJsonFound : VError
  | unparseableJson (orig : String) : VError
  | missingField (field : String) : VError
  deriving DecidableEq

/-- Field-validation stage of `validate_output` (source lines 242-272):
requires `responsive`, coerces it to boolean; clamps `confidence` into
[0, 1] with default 0.5; coerces `reason` to a string, defaulting and
hard-truncating to 200 characters with a `...` marker; forces `labels`
to a list of strings.  The input dict is updated in place and returned,
so unrelated keys survive. -/
def validateFields (data : List (String × JValue)) :
    Except VError (List (String × JValue)) :=
  match dictGet data "responsive" with
  | none => .error (.missingField "responsive")
  | some rv =>
    let d1 := dictSet data "responsive" (.bool (pyTruthy rv))
    let c0 : Option ℚ :=
      match dictGet d1 "confidence" with
      | none => some (Rat.divInt 1 2)
      | some v => pyFloat v
    let conf : ℚ :=
      match c0 with
      | none => Rat.divInt 1 2
      | some q => maxQ (qOfNat 0) (minQ (qOfNat 1) q)
    let d2 := dictSet d1 "confidence" (.num conf)
    let reason0 := pyStr ((dictGet d2 "reason").getD (.str "No reason provided"))
    let reason :=
      if 200 < reason0.length then String.mk (reason0.data.take 197) ++ "..." else reason0
    let d3 := dictSet d2 "reason" (.str reason)
    let labelsList : List JValue :=
      match (dictGet d3 "labels").getD (.arr []) with
      | .arr xs => xs
      | v => if pyTruthy v then [v] else []
    .ok (dictSet d3 "labels" (.arr (labelsList.map (fun l => .str (pyStr l)))))

/-- Validation of a parsed JSON value.  The candidate handed to the
parser always starts with a brace, so a successful parse is always an
object; the non-object branch is unreachable and conservatively reports
the missing required field. -/
def validateTop : JValue → Except VError (List (String × JValue))
  | .obj kvs => validateFields kvs
  | _ => .error (.missingField "responsive")

/-! The JSON repair pass (source lines 229-235). -/

/-- Split a character list at the first apostrophe: returns the prefix
before it and the suffix after it. -/
def splitAtApos : List Char → Option (List Char × List Char)
  | [] => none
  | c :: rest =>
    if c = '\x27' then some ([], rest)
    else
      match splitAtApos rest with
      | some (pre, post) => some (c :: pre, post)
      | none => none

/-- Model of `re.sub(r"'([^']*)'", r'"\1"', s)`: each non-overlapping
leftmost pair of single quotes (with no single quote between them) is
replaced by double quotes.  `fuel` bounds recursion; callers pass the
input length, which suffices since every step consumes input. -/
def fixQuotesF : Nat → List Char → List Char
  | 0, cs => cs
  | _ + 1, [] => []
  | fuel + 1, c :: rest =>
    if c = '\x27' then
      match splitAtApos rest with
      | some (content, rest1) => '"' :: (content ++ '"' :: fixQuotesF fuel rest1)
      | none => c :: fixQuotesF fuel rest
    else c :: fixQuotesF fuel rest

/-- Single-quote repair at the `String`-free interface used by the
validator. -/
def fixQuotes (cs : List Char) : List Char :=
  fixQuotesF cs.length cs

/-- Whitespace run followed by the given closing character: returns the
suffix after that character, if the pattern matches. -/
def wsThenClose (close : Char) (cs : List Char) : Option (List Char) :=
  match cs.dropWhile isPyWs with
  | c :: r => if c = close then some r else none
  | [] => none

/-- Model of `re.sub(r',\s*X', 'X', s)` for a closing character `X`:
every comma followed by whitespace and `X` collapses to `X`, scanning
left to right over non-overlapping matches. -/
def stripCommaF (close : Char) : Nat → List Char → List Char
  | 0, cs => cs
  | _ + 1, [] => []
  | fuel + 1, c :: rest =>
    if c = ',' then
      match wsThenClose close rest with
      | some rest1 => close :: stripCommaF close fuel rest1
      | none => c :: stripCommaF close fuel rest
    else c :: stripCommaF close fuel rest

/-- Trailing-comma repair before the given closing character. -/
def stripComma (close : Char) (cs : List Char) : List Char :=
  stripCommaF close cs.length cs

/-- One repair pass, in source order: single quotes to double quotes,
then trailing commas before `}`, then trailing commas before `]`. -/
def repairJson (cs : List Char) : List Char :=
  stripComma ']' (stripComma '\x7d' (fixQuotes cs))

/-! Markdown-fence stripping (source lines 218-219) and JSON-candidate
extraction (line 222). -/

/-- The opening fence token matched by `^```json`. -/
def fenceOpenChars : List Char := ['\x60', '\x60', '\x60', 'j', 's', 'o', 'n']

/-- A plain triple-backtick fence. -/
def fence3 : List Char := ['\x60', '\x60', '\x60']

/-- Index of the last occurrence of a character in a list. -/
def lastIdxOf (c : Char) : List Char → Option Nat
  | [] => none
  | a :: rest =>
    match lastIdxOf c rest with
    | some j => some (j + 1)
    | none => if a = c then some 0 else none

/-- Model of `re.sub(r'^```json\s*\n?', '', s, flags=re.MULTILINE)`: at
every line start, an occurrence of ` ```json ` is removed together with
the maximal whitespace run that follows (the greedy `\s*` absorbs any
newlines, leaving `\n?` empty).  The boolean tracks whether the current
position is a line start in the original string. -/
def stripOpenF : Nat → Bool → List Char → List Char
  | 0, _, cs => cs
  | fuel + 1, atLS, cs =>
    if atLS && fenceOpenChars.isPrefixOf cs then
      let rest0 := cs.drop 7
      let ws := rest0.takeWhile isPyWs
      stripOpenF fuel (decide (ws.getLast? = some '\n')) (rest0.dropWhile isPyWs)
    else
      match cs with
      | [] => []
      | c :: rest => c :: stripOpenF fuel (c = '\n') rest

/-- Longest whitespace run here that ends at a `$` position of the
MULTILINE regex (end of string, or just before a newline inside the
run); returns its length, or `none` when no such run exists. -/
def wsDollarLen (cs : List Char) : Option Nat :=
  let run := cs.takeWhile isPyWs
  if (cs.drop run.length).isEmpty then some run.length
  else lastIdxOf '\n' run

/-- Length of a match of `\n?```\s*$` starting at the head of the list,
if any (the greedy optional newline is taken when possible). -/
def closeMatchLen (cs : List Char) : Option Nat :=
  match cs with
  | '\n' :: rest =>
    if fence3.isPrefixOf rest then (wsDollarLen (rest.drop 3)).map (· + 4) else none
  | _ =>
    if fence3.isPrefixOf cs then (wsDollarLen (cs.drop 3)).map (· + 3) else none

/-- Model of `re.sub(r'\n?```\s*$', '', s, flags=re.MULTILINE)`: scan
left to right, removing each non-overlapping match. -/
def stripCloseF : Nat → List Char → List Char
  | 0, cs => cs
  | _ + 1, [] => []
  | fuel + 1, c :: rest =>
    match closeMatchLen (c :: rest) with
    | some len => stripCloseF fuel ((c :: rest).drop len)
    | none => c :: stripCloseF fuel rest

/-- The two fence-stripping substitutions of `validate_output`, in
source order. -/
def stripFences (s : String) : List Char :=
  let opened := stripOpenF s.data.length true s.data
  stripCloseF opened.length opened

/-- Model of `re.search(r'\{.*\}', s, re.DOTALL)`: the leftmost-greedy
span from the first opening brace (that has a closing brace after it)
to the last closing brace; `none` when no such span exists. -/
def extractSpan (cs : List Char) : Option (List Char) :=
  match cs.dropWhile (fun c => !(c == '\x7b')) with
  | [] => none
  | t =>
    match lastIdxOf '\x7d' t with
    | none => none
    | some j => some (t.take (j + 1))

/-- Model of `PromptBuilder.validate_output` (source lines 201-272):
strip markdown fences, locate the JSON candidate span, strictly parse
it, on failure repair once and re-parse, then validate and coerce the
fields, returning the updated dict. -/
def validate_output (s : String) : Except VError (List (String × JValue)) :=
  match extractSpan (stripFences s) with
  | none => .error .noJsonFound
  | some cand =>
    match jsonParse cand with
    | .ok v => validateTop v
    | .error e =>
      match jsonParse (repairJson cand) with
      | .ok v => validateTop v
      | .error _ => .error (.unparseableJson e)

/-! Model of `json.dumps` as used by the prompt builder. -/

/-- Hexadecimal digit character. -/
def hexDigit (n : Nat) : Char :=
  if n < 10 then Char.ofNat ('0'.toNat + n) else Char.ofNat ('a'.toNat + n - 10)

/-- JSON escape of one character, as `json.dumps` with `ensure_ascii`
produces it.  (Astral characters would use surrogate pairs in CPython;
not modelled, and no claim exercises them.) -/
def escChar (c : Char) : List Char :=
  if c = '"' then ['\\', '"']
  else if c = '\\' then ['\\', '\\']
  else if c = '\n' then ['\\', 'n']
  else if c = '\t' then ['\\', 't']
  else if c = '\r' then ['\\', 'r']
  else if c = '\x08' then ['\\', 'b']
  else if c = '\x0c' then ['\\', 'f']
  else if c.toNat < 0x20 || 0x7f ≤ c.toNat then
    ['\\', 'u', hexDigit (c.toNat / 4096 % 16), hexDigit (c.toNat / 256 % 16),
      hexDigit (c.toNat / 16 % 16), hexDigit (c.toNat % 16)]
  else [c]

/-- JSON string literal for `json.dumps`. -/
def escapeJsonString (s : String) : String :=
  "\"" ++ String.mk (List.flatten (s.data.map escChar)) ++ "\""

/-- Scalar rendering shared by both `json.dumps` modes. -/
def dumpScalar : JValue → String
  | .null => "null"
  | .bool b => if b then "true" else "false"
  | .num q => renderNum q
  | .str s => escapeJsonString s
  | .arr _ => ""
  | .obj _ => ""

/-- Indentation prefix of `json.dumps(..., indent=2)` at a level. -/
def indentStr (lvl : Nat) : String :=
  String.mk (List.replicate (2 * lvl) ' ')

/-- Model of `json.dumps(v, indent=2)`: pretty-printed JSON with
two-space indentation, `", "`-free item separators (`",\n"` plus
indentation) and `": "` key separators, exactly as CPython renders it. -/
def jsonDumps2At : Nat → JValue → String
  | _, .null => "null"
  | _, .bool b => if b then "true" else "false"
  | _, .num q => renderNum q
  | _, .str s => escapeJsonString s
  | _, .arr [] => "[]"
  | lvl, .arr (x :: xs) =>
    "[\n" ++ String.intercalate ",\n"
      (((x :: xs).attach.map (fun y => indentStr (lvl + 1) ++ jsonDumps2At (lvl + 1) y.1))) ++
      "\n" ++ indentStr lvl ++ "]"
  | _, .obj [] => "\x7b\x7d"
  | lvl, .obj (kv :: kvs) =>
    "\x7b\n" ++ String.intercalate ",\n"
      (((kv :: kvs).attach.map (fun y =>
        indentStr (lvl + 1) ++ escapeJsonString y.1.1 ++ ": " ++
          jsonDumps2At (lvl + 1) y.1.2))) ++
      "\n" ++ indentStr lvl ++ "\x7d"
termination_by lvl v => sizeOf v
decreasing_by
  · have h1 := List.sizeOf_lt_of_mem y.2
    simp at *
    omega
  · have h1 := List.sizeOf_lt_of_mem y.2
    obtain ⟨⟨k, v⟩, hy⟩ := y
    simp [Prod.mk.sizeOf_spec] at *
    omega

/-- Model of `json.dumps(v, indent=2)` at the top level. -/
def jsonDumps2 (v : JValue) : String := jsonDumps2At 0 v

/-- Model of plain `json.dumps(v)`: compact rendering with `", "` and
`": "` separators. -/
def jsonDumpsC : JValue → String
  | .null => "null"
  | .bool b => if b then "true" else "false"
  | .num q => renderNum q
  | .str s => escapeJsonString s
  | .arr xs =>
    "[" ++ String.intercalate ", " (xs.attach.map (fun y => jsonDumpsC y.1)) ++ "]"
  | .obj kvs =>
    "\x7b" ++ String.intercalate ", "
      (kvs.attach.map (fun y => escapeJsonString y.1.1 ++ ": " ++ jsonDumpsC y.1.2)) ++
      "\x7d"
decreasing_by
  · have h1 := List.sizeOf_lt_of_mem y.2
    simp at *
    omega
  · have h1 := List.sizeOf_lt_of_mem y.2
    obtain ⟨⟨k, v⟩, hy⟩ := y
    simp [Prod.mk.sizeOf_spec] at *
    omega

/-! The prompt builder (`PromptBuilder.build`). -/

/-- The stored email record as the prompt builder reads it.  `date` is
the rendered form of the stored datetime (only its string rendering
enters the prompt). -/
structure EmailRec where
  subject : Option String
  from_addr : Option String
  to_addr : Option String
  date : Option String
  body_text : String

/-- One few-shot example from the configuration bundle, with the
optional dict keys `subject`, `from`, `body`, `output` (the `from` key
is named `sender` here because `from` is reserved in Lean). -/
structure FewshotEx where
  subject : Option String
  sender : Option String
  body : Option String
  output : Option JValue

/-- Python truthiness of an optional string (`None` and `""` falsy). -/
def optTruthy : Option String → Bool
  | some s => decide (s ≠ "")
  | none => false

/-- Python `x or d` for an optional string: the string when truthy,
otherwise the default. -/
def orElsePy (o : Option String) (d : String) : String :=
  match o with
  | some s => if s = "" then d else s
  | none => d

/-- The worked-example output shape embedded in every prompt (source
lines 123-128), rendered with `json.dumps(..., indent=2)`. -/
def schemaBlockStr : String :=
  jsonDumps2 (.obj
    [("responsive", .str "boolean (true/false)"),
     ("confidence", .str "number (0.0-1.0)"),
     ("reason", .str "string (max 200 chars)"),
     ("labels", .arr [.str "list", .str "of", .str "labels"])])

/-- Prompt lines for one few-shot example (source lines 137-147):
numbered header, subject with `N/A` default, optional from-line, body
truncated to 500 characters, then the expected verdict pretty-printed. -/
def exampleLines (i : Nat) (ex : FewshotEx) : List String :=
  ["Example " ++ toString i ++ ":", "Subject: " ++ ex.subject.getD "N/A"] ++
  (if optTruthy ex.sender then ["From: " ++ (ex.sender.getD "")] else []) ++
  (if optTruthy ex.body then
    ["Body: " ++ String.mk ((ex.body.getD "").data.take 500)] else []) ++
  ["", "Classification:", jsonDumps2 (ex.output.getD (.obj [])), ""]

/-- Prompt lines for the few-shot examples, numbered from `i`. -/
def examplesLines (i : Nat) : List FewshotEx → List String
  | [] => []
  | ex :: rest => exampleLines i ex ++ examplesLines (i + 1) rest

/-- The prompt parts list accumulated by `PromptBuilder.build` before
joining with newlines (source lines 114-162). -/
def buildParts (system_prompt : String) (examples : List FewshotEx)
    (email : EmailRec) : List String :=
  [system_prompt, "",
   "Your output must be valid JSON with this structure:",
   "\x60\x60\x60json", schemaBlockStr, "\x60\x60\x60", ""] ++
  (if examples.isEmpty then []
   else ["Here are some examples of correct classifications:", ""] ++
     examplesLines 1 examples) ++
  ["Now classify this email:", "",
   "Subject: " ++ orElsePy email.subject "N/A"] ++
  (if optTruthy email.from_addr then ["From: " ++ (email.from_addr.getD "")] else []) ++
  (if optTruthy email.to_addr then ["To: " ++ (email.to_addr.getD "")] else []) ++
  (if optTruthy email.date then ["Date: " ++ (email.date.getD "")] else []) ++
  ["", "Body: " ++ email.body_text, "", "Classification (output JSON only):"]

/-- Python's `"\n".join`. -/
def joinNL : List String → String
  | [] => ""
  | [s] => s
  | s :: rest => s ++ "\n" ++ joinNL rest

/-- Model of `PromptBuilder.build`: the parts list joined by newlines. -/
def build (system_prompt : String) (examples : List FewshotEx)
    (email : EmailRec) : String :=
  joinNL (buildParts system_prompt examples email)

/-- Concatenation of lines, each followed by a newline (helper for
relating `joinNL` to section-structured renderings). -/
def lineCat : List String → String
  | [] => ""
  | s :: rest => s ++ "\n" ++ lineCat rest

/-- Rendering of one few-shot example as the specification describes
it: numbered header, subject (`N/A` when the key is absent), an
optional from-line, the body truncated to the fixed 500-character
budget, then the expected verdict pretty-printed, followed by a blank
line. -/
def exampleSpec (i : Nat) (ex : FewshotEx) : String :=
  "Example " ++ toString i ++ ":" ++ "\n" ++
  "Subject: " ++ ex.subject.getD "N/A" ++ "\n" ++
  (if optTruthy ex.sender then "From: " ++ (ex.sender.getD "") ++ "\n" else "") ++
  (if optTruthy ex.body then
    "Body: " ++ String.mk ((ex.body.getD "").data.take 500) ++ "\n" else "") ++
  "" ++ "\n" ++ "Classification:" ++ "\n" ++
  jsonDumps2 (ex.output.getD (.obj [])) ++ "\n" ++ "" ++ "\n"

/-- Rendering of the few-shot examples in configured order, numbered
from `i`. -/
def examplesSpec (i : Nat) : List FewshotEx → String
  | [] => ""
  | ex :: rest => exampleSpec i ex ++ examplesSpec (i + 1) rest

/-- The full prompt as the specification describes it, in fixed order:
system instruction, worked-JSON restatement of the output shape, the
few-shot examples in configured order, then the target email with `N/A`
substituted for a missing (or empty, per the spec's parenthetical)
subject, From/To/Date lines included only when the field is present and
nonempty, the full untruncated body, and the terminal
output-JSON-only instruction. -/
def buildSpec (system_prompt : String) (examples : List FewshotEx)
    (email : EmailRec) : String :=
  system_prompt ++ "\n" ++ "" ++ "\n" ++
  "Your output must be valid JSON with this structure:" ++ "\n" ++
  "\x60\x60\x60json" ++ "\n" ++ schemaBlockStr ++ "\n" ++ "\x60\x60\x60" ++ "\n" ++ "" ++ "\n" ++
  (if examples.isEmpty then ""
   else "Here are some examples of correct classifications:" ++ "\n" ++ "" ++ "\n" ++
     examplesSpec 1 examples) ++
  "Now classify this email:" ++ "\n" ++ "" ++ "\n" ++
  "Subject: " ++ (if optTruthy email.subject then email.subject.getD "" else "N/A") ++ "\n" ++
  (if optTruthy email.from_addr then "From: " ++ (email.from_addr.getD "") ++ "\n" else "") ++
  (if optTruthy email.to_addr then "To: " ++ (email.to_addr.getD "") ++ "\n" else "") ++
  (if optTruthy email.date then "Date: " ++ (email.date.getD "") ++ "\n" else "") ++
  "" ++ "\n" ++ "Body: " ++ email.body_text ++ "\n" ++ "" ++ "\n" ++
  "Classification (output JSON only):"

/-! The few-shot configuration loader (`PromptBuilder._load_fewshot`
and `__init__`). -/

/-- The built-in default system prompt returned by
`_get_default_system_prompt`. -/
def defaultSystemPrompt : String :=
  "You are a careful legal assistant helping classify emails for a California Public Records Act (CPRA) request regarding environmental hazards and building-system conditions at K-12 schools and district facilities.\n\nYour task is to determine whether an email meaningfully discusses or pertains to environmental conditions such as:\n- Mold (inspection, testing, remediation, moisture intrusion)\n- Lead (water testing, plumbing maintenance, paint/glazing - NOT \"lead teacher\" or \"leadership\")\n- Asbestos (inspection, abatement, management, monitoring)\n- Other environmental hazards (radon, PCBs, pesticides, VOCs, indoor air quality)\n- Building and infrastructure systems (HVAC, roofing, windows, drainage)\n- Funding and remediation plans for environmental issues\n\nBe very careful to avoid false positives where words like \"lead\" mean \"leadership,\" \"lead teacher,\" \"lead time,\" or other unrelated senses.\n\nOutput your classification as valid JSON matching the provided schema."

/-- The built-in default output schema returned by
`_get_default_schema`. -/
def defaultSchema : JValue :=
  .obj
    [("responsive", .obj
       [("type", .str "boolean"),
        ("description", .str "True if email is responsive to CPRA request")]),
     ("confidence", .obj
       [("type", .str "number"),
        ("description", .str "Confidence score between 0.0 and 1.0"),
        ("minimum", .num (qOfNat 0)),
        ("maximum", .num (qOfNat 1))]),
     ("reason", .obj
       [("type", .str "string"),
        ("description", .str "Brief explanation (max 200 chars)"),
        ("maxLength", .num (qOfNat 200))]),
     ("labels", .obj
       [("type", .str "array"),
        ("description", .str "List of relevant environmental hazard labels"),
        ("items", .obj [("type", .str "string")])])]

/-- The default configuration bundle used when the few-shot file does
not exist. -/
def defaultFewshotData : JValue :=
  .obj
    [("version", .str "1.0"),
     ("system", .str defaultSystemPrompt),
     ("examples", .arr []),
     ("output_schema", defaultSchema)]

/-- Model of `PromptBuilder._load_fewshot`: the file-system state is
`none` when the configured path does not exist and `some content`
otherwise.  A missing file yields the built-in defaults; an existing
file is parsed strictly, and a parse failure raises `ValueError`
(modelled as `Except.error`) with the original message. -/
def load_fewshot (file : Option String) : Except String JValue :=
  match file with
  | none => .ok defaultFewshotData
  | some content =>
    match jsonParse content.data with
    | .ok v => .ok v
    | .error e => .error ("Invalid JSON: " ++ e)

/-- Python `dict.get(k)` on a JSON value, returning `none` for missing
keys.  (A bundle whose top level is not an object would raise
`AttributeError` in Python; that corner returns `none` here and no
claim depends on it.) -/
def jGet : JValue → String → Option JValue
  | .obj kvs, k => dictGet kvs k
  | _, _ => none

/-- The prompt-builder state captured by `__init__` from the loaded
bundle: version, system prompt, examples and output schema, with their
source defaults. -/
structure PBState where
  version : JValue
  system : JValue
  examples : JValue
  output_schema : JValue

/-- Model of `PromptBuilder.__init__` (with no version override): load
the bundle, then read the four fields with their `.get` defaults.
Construction fails exactly when `_load_fewshot` raises. -/
def promptBuilderInit (file : Option String) : Except String PBState :=
  match load_fewshot file with
  | .error e => .error e
  | .ok data =>
    .ok
      { version := (jGet data "version").getD (.str "1.0"),
        system := (jGet data "system").getD (.str ""),
        examples := (jGet data "examples").getD (.arr []),
        output_schema := (jGet data "output_schema").getD (.obj []) }

/-! The email store (`backend/db/crud.py`). -/

/-- A stored `Email` row (the columns `create_email` sets). -/
structure EmailRow where
  id : Nat
  project_id : Nat
  path : String
  sha256 : String
  subject : Option String
  from_addr : Option String
  to_addr : Option String
  date : Option String
  body_text : String
  meta_json : String
  deriving DecidableEq

/-- The email table together with the autoincrement counter. -/
structure EmailDb where
  emails : List EmailRow
  nextId : Nat
  deriving DecidableEq

/-- Model of `get_email_by_sha256`: first stored email of the project
with the given content hash. -/
def get_email_by_sha256 (db : EmailDb) (project_id : Nat) (sha : String) :
    Option EmailRow :=
  db.emails.find? (fun e => e.project_id == project_id && e.sha256 == sha)

/-- Hash resolution of `create_email` / `bulk_create_emails`: a falsy
provided hash (absent or empty) is replaced by the hash of the body
text.  `hashFn` stands for `hashlib.sha256(...).hexdigest()`. -/
def resolveSha (sha : Option String) (body_text : String)
    (hashFn : String → String) : String :=
  match sha with
  | some s => if s = "" then hashFn body_text else s
  | none => hashFn body_text

/-- Model of `create_email`: resolve the hash, return the existing row
of this project with the same hash if there is one (no insertion),
otherwise insert a fresh row. -/
def create_email (db : EmailDb) (project_id : Nat) (path : String)
    (body_text : String) (sha : Option String)
    (subject from_addr to_addr date : Option String) (meta : Option JValue)
    (hashFn : String → String) : EmailDb × EmailRow :=
  let h := resolveSha sha body_text hashFn
  match get_email_by_sha256 db project_id h with
  | some e => (db, e)
  | none =>
    let row : EmailRow :=
      { id := db.nextId, project_id := project_id, path := path, sha256 := h,
        subject := subject, from_addr := from_addr, to_addr := to_addr,
        date := date, body_text := body_text,
        meta_json := jsonDumpsC (meta.getD (.obj [])) }
    ({ emails := db.emails ++ [row], nextId := db.nextId + 1 }, row)

/-- One record of the `emails_data` list taken by `bulk_create_emails`. -/
structure BulkEmailData where
  path : String
  body_text : String
  sha : Option String
  subject : Option String
  from_addr : Option String
  to_addr : Option String
  date : Option String
  metadata_dict : Option JValue

/-- Model of `bulk_create_emails`: fold over the records, counting a
duplicate for every record whose (project, hash) pair is already stored
— including by an earlier record of the same batch, which the session's
autoflush makes visible — and inserting the rest.  Returns the new
state with `(created, duplicates)`. -/
def bulk_create_emails (db : EmailDb) (project_id : Nat)
    (items : List BulkEmailData) (hashFn : String → String) :
    EmailDb × Nat × Nat :=
  match items with
  | [] => (db, 0, 0)
  | item :: rest =>
    let h := resolveSha item.sha item.body_text hashFn
    match get_email_by_sha256 db project_id h with
    | some _ =>
      let (db1, created, dups) := bulk_create_emails db project_id rest hashFn
      (db1, created, dups + 1)
    | none =>
      let row : EmailRow :=
        { id := db.nextId, project_id := project_id, path := item.path,
          sha256 := h, subject := item.subject, from_addr := item.from_addr,
          to_addr := item.to_addr, date := item.date,
          body_text := item.body_text,
          meta_json := jsonDumpsC (item.metadata_dict.getD (.obj [])) }
      let (db1, created, dups) := bulk_create_emails
        { emails := db.emails ++ [row], nextId := db.nextId + 1 }
        project_id rest hashFn
      (db1, created + 1, dups)

/-- Per-project content-hash uniqueness: no two stored emails share
both project and hash. -/
def hashUnique (db : EmailDb) : Prop :=
  db.emails.Pairwise
    (fun a b => ¬(a.project_id = b.project_id ∧ a.sha256 = b.sha256))

/-- Identifier freshness: every stored id is below the counter. -/
def idsFresh (db : EmailDb) : Prop :=
  ∀ e ∈ db.emails, e.id < db.nextId

/-- Well-formedness of the email store. -/
def dbWf (db : EmailDb) : Prop :=
  hashUnique db ∧ idsFresh db

/-! The classification store (`create_classification`). -/

/-- A stored `Classification` row (the columns `create_classification`
sets). -/
structure ClassificationRow where
  email_id : Nat
  run_id : String
  model : String
  prompt_version : String
  responsive_pred : Bool
  confidence : ℚ
  labels_json : String
  reason : String
  params_json : String
  status : String
  deriving DecidableEq

/-- Model of `create_classification`: builds the row — truncating the
reason to 200 characters, serializing labels and params — appends it
and returns it.  The operation is total: no input length can make it
fail. -/
def create_classification (db : List ClassificationRow) (email_id : Nat)
    (run_id model prompt_version : String) (responsive_pred : Bool)
    (confidence : ℚ) (labels : List String) (reason : String)
    (params : Option JValue) (status : String) :
    List ClassificationRow × ClassificationRow :=
  let row : ClassificationRow :=
    { email_id := email_id, run_id := run_id, model := model,
      prompt_version := prompt_version, responsive_pred := responsive_pred,
      confidence := confidence,
      labels_json := jsonDumpsC (.arr (labels.map .str)),
      reason := String.mk (reason.data.take 200),
      params_json := jsonDumpsC (params.getD (.obj [])),
      status := status }
  (db ++ [row], row)

/-! The model gateway cache (`OllamaClient.list_models` /
`clear_cache`). -/

/-- A model descriptor from `/api/tags` (the fields of `ModelInfo`). -/
structure MInfo where
  name : String
  model : String
  size : Nat
  digest : String
  modified_at : String
  deriving DecidableEq

/-- Outcome of one upstream request, as the client distinguishes them. -/
inductive FetchOutcome where
  | ok (models : List MInfo) : FetchOutcome
  | connectError : FetchOutcome
  | timeoutError : FetchOutcome
  | httpError (msg : String) : FetchOutcome
  deriving DecidableEq

/-- Transport-level errors raised by the client, with their messages. -/
inductive GatewayError where
  | connectionFailure (msg : String) : GatewayError
  | timeout (msg : String) : GatewayError
  | runtime (msg : String) : GatewayError
  deriving DecidableEq

/-- The mutable cache state of one `OllamaClient` (times in seconds). -/
structure ClientState where
  model_cache : Option (List MInfo)
  cache_timestamp : Option ℚ
  deriving DecidableEq

/-- The cache TTL: `timedelta(minutes=5)`, in seconds. -/
def cacheTtl : ℚ := 5 * 60

/-- The fetch-and-update path of `list_models`: issue the upstream
request; on success store the result and the current time in the cache,
on failure raise the corresponding error and leave the cache unchanged.
The boolean records that an upstream request was issued. -/
def fetchModels (st : ClientState) (now : ℚ) (fetch : FetchOutcome) :
    Except GatewayError (List MInfo) × ClientState × Bool :=
  match fetch with
  | .ok ms => (.ok ms, { model_cache := some ms, cache_timestamp := some now }, true)
  | .connectError =>
    (.error (.connectionFailure "Cannot connect to Ollama. Is it running?"), st, true)
  | .timeoutError => (.error (.timeout "Ollama request timed out"), st, true)
  | .httpError m => (.error (.runtime ("HTTP error from Ollama: " ++ m)), st, true)

/-- Model of `OllamaClient.list_models`: when both cache fields are set
and the cache is younger than the TTL, return it without any request;
otherwise fetch.  `now` is the value `datetime.now()` returns during
this call and `fetch` the outcome the upstream would produce. -/
def list_models (st : ClientState) (now : ℚ) (fetch : FetchOutcome) :
    Except GatewayError (List MInfo) × ClientState × Bool :=
  match st.model_cache, st.cache_timestamp with
  | some cache, some ts =>
    if now - ts < cacheTtl then (.ok cache, st, false)
    else fetchModels st now fetch
  | _, _ => fetchModels st now fetch

/-- Model of `OllamaClient.clear_cache`: reset both cache fields. -/
def clear_cache (_st : ClientState) : ClientState :=
  { model_cache := none, cache_timestamp := none }

/-- The dict produced by the parsing stage of `validate_output` for a
given input, when it succeeds: the strict parse of the candidate span,
or failing that the parse of its repair. -/
def parsedCandidate (s : String) : Option (List (String × JValue)) :=
  match extractSpan (stripFences s) with
  | none => none
  | some cand =>
    match jsonParse cand with
    | .ok (.obj kvs) => some kvs
    | .ok _ => none
    | .error _ =>
      match jsonParse (repairJson cand) with
      | .ok (.obj kvs) => some kvs
      | _ => none

/-- The input of the spec's clamping test case: `responsive` as the
number 1, `confidence` 1.5, a 250-character reason, and a bare string
for `labels`. -/
def c2Input : String :=
  "\x7b\"responsive\": 1, \"confidence\": 1.5, \"reason\": \"" ++
    String.mk (List.replicate 250 'x') ++ "\", \"labels\": \"single\"\x7d"

/-- Fixture row for the dedup witness: project 1, content hash "h". -/
def wRow : EmailRow :=
  { id := 0, project_id := 1, path := "a.txt", sha256 := "h",
    subject := none, from_addr := none, to_addr := none, date := none,
    body_text := "b", meta_json := "\x7b\x7d" }

/-- Fixture store for the dedup witness: one stored email. -/
def wDb : EmailDb := ⟨[wRow], 1⟩

/-- Fixture batch record for the dedup witness: same content hash. -/
def wItem : BulkEmailData :=
  { path := "c.txt", body_text := "b", sha := some "h", subject := none,
    from_addr := none, to_addr := none, date := none, metadata_dict := none }

/-! Bridge lemmas: the kernel-evaluable rational helpers agree with
the ordinary field operations on `ℚ`. -/

theorem qAdd_eq (a b : ℚ) : qAdd a b = a + b := by
  conv_rhs => rw [← Rat.num_divInt_den a, ← Rat.num_divInt_den b]
  rw [Rat.divInt_add_divInt _ _ (Int.natCast_ne_zero.mpr a.den_nz)
    (Int.natCast_ne_zero.mpr b.den_nz)]
  simp [qAdd]

theorem qMul_eq (a b : ℚ) : qMul a b = a * b := by
  conv_rhs => rw [← Rat.num_divInt_den a, ← Rat.num_divInt_den b]
  rw [Rat.divInt_mul_divInt']
  simp [qMul]

theorem qDiv_eq (a b : ℚ) : qDiv a b = a / b := by
  rw [Rat.div_def' a b]
  simp [qDiv]

theorem qNeg_eq (a : ℚ) : qNeg a = -a := by
  rw [Rat.neg_def a]
  simp [qNeg]

theorem qOfNat_eq (n : Nat) : qOfNat n = (n : ℚ) := by
  simp [qOfNat, Rat.divInt_eq_div]

theorem minQ_eq (a b : ℚ) : minQ a b = min a b := by
  rw [minQ, min_def]
  rcases lt_or_ge b a with h | h
  · rw [if_pos h, if_neg (not_le.mpr h)]
  · rw [if_neg (not_lt.mpr h), if_pos h]

theorem maxQ_eq (a b : ℚ) : maxQ a b = max a b := by
  rw [maxQ, max_def]
  rcases lt_trichotomy a b with h | h | h
  · rw [if_pos h, if_pos (le_of_lt h)]
  · subst h
    simp
  · rw [if_neg (lt_asymm h), if_neg (not_le.mpr h)]

/-! Dictionary lemmas. -/

theorem dictGet_dictSet_self (d : List (String × JValue)) (k : String) (v : JValue) :
    dictGet (dictSet d k v) k = some v := by
  induction d with
  | nil => simp [dictSet, dictGet]
  | cons hd tl ih =>
    obtain ⟨k1, v1⟩ := hd
    by_cases h : k1 = k
    · simp [dictSet, dictGet, h]
    · simp [dictSet, dictGet, h, ih]

theorem dictGet_dictSet_ne (d : List (String × JValue)) (k k1 : String) (v : JValue)
    (h : k1 ≠ k) : dictGet (dictSet d k v) k1 = dictGet d k1 := by
  induction d with
  | nil => simp [dictSet, dictGet, Ne.symm h]
  | cons hd tl ih =>
    obtain ⟨k2, v2⟩ := hd
    by_cases h2 : k2 = k
    · subst h2
      simp [dictSet, dictGet, Ne.symm h]
    · simp [dictSet, dictGet, h2, ih]

/-! Shape of the validator's results. -/

theorem validatedDict_shape (data : List (String × JValue)) (b : Bool) (q : ℚ)
    (r : String) (ls : List JValue) (hq : 0 ≤ q ∧ q ≤ 1) (hr : r.length ≤ 200)
    (hls : ∀ v ∈ ls, ∃ t, v = JValue.str t) :
    (∃ b1, dictGet (dictSet (dictSet (dictSet (dictSet data "responsive"
      (.bool b)) "confidence" (.num q)) "reason" (.str r)) "labels" (.arr ls))
      "responsive" = some (.bool b1)) ∧
    (∃ q1, dictGet (dictSet (dictSet (dictSet (dictSet data "responsive"
      (.bool b)) "confidence" (.num q)) "reason" (.str r)) "labels" (.arr ls))
      "confidence" = some (.num q1) ∧ 0 ≤ q1 ∧ q1 ≤ 1) ∧
    (∃ r1, dictGet (dictSet (dictSet (dictSet (dictSet data "responsive"
      (.bool b)) "confidence" (.num q)) "reason" (.str r)) "labels" (.arr ls))
      "reason" = some (.str r1) ∧ r1.length ≤ 200) ∧
    (∃ ls1, dictGet (dictSet (dictSet (dictSet (dictSet data "responsive"
      (.bool b)) "confidence" (.num q)) "reason" (.str r)) "labels" (.arr ls))
      "labels" = some (.arr ls1) ∧ ∀ v ∈ ls1, ∃ t, v = .str t) := by
  refine ⟨⟨b, ?_⟩, ⟨q, ?_, hq⟩, ⟨r, ?_, hr⟩, ⟨ls, ?_, hls⟩⟩
  · rw [dictGet_dictSet_ne _ _ _ _ (by decide), dictGet_dictSet_ne _ _ _ _ (by decide),
      dictGet_dictSet_ne _ _ _ _ (by decide), dictGet_dictSet_self]
  · rw [dictGet_dictSet_ne _ _ _ _ (by decide), dictGet_dictSet_ne _ _ _ _ (by decide),
      dictGet_dictSet_self]
  · rw [dictGet_dictSet_ne _ _ _ _ (by decide), dictGet_dictSet_self]
  · rw [dictGet_dictSet_self]

theorem confClamp_bounds (c0 : Option ℚ) :
    0 ≤ (match c0 with
         | none => Rat.divInt 1 2
         | some q => maxQ (qOfNat 0) (minQ (qOfNat 1) q)) ∧
    (match c0 with
     | none => Rat.divInt 1 2
     | some q => maxQ (qOfNat 0) (minQ (qOfNat 1) q)) ≤ 1 := by
  cases c0 with
  | none =>
    constructor
    · rw [Rat.divInt_eq_div]; norm_num
    · rw [Rat.divInt_eq_div]; norm_num
  | some q =>
    simp only
    rw [maxQ_eq, minQ_eq, qOfNat_eq, qOfNat_eq]
    push_cast
    exact ⟨le_max_left 0 _, max_le (by norm_num) (min_le_left 1 q)⟩

theorem truncReason_length (r0 : String) :
    (if 200 < r0.length then String.mk (r0.data.take 197) ++ "..." else r0).length ≤ 200 := by
  by_cases hlen : 200 < r0.length
  · rw [if_pos hlen]
    have h1 : (String.mk (r0.data.take 197)).length = (r0.data.take 197).length := rfl
    have h3 : ("..." : String).length = 3 := rfl
    rw [String.length_append, h1, List.length_take, h3]
    omega
  · rw [if_neg hlen]
    omega

theorem strLabels_shape (xs : List JValue) :
    ∀ v ∈ xs.map (fun l => JValue.str (pyStr l)), ∃ t, v = JValue.str t := by
  intro v hv
  obtain ⟨l, _, hl⟩ := List.mem_map.mp hv
  exact ⟨pyStr l, hl.symm⟩

theorem validateFields_ok_shape (data out : List (String × JValue))
    (h : validateFields data = .ok out) :
    (∃ b, dictGet out "responsive" = some (.bool b)) ∧
    (∃ q, dictGet out "confidence" = some (.num q) ∧ 0 ≤ q ∧ q ≤ 1) ∧
    (∃ r, dictGet out "reason" = some (.str r) ∧ r.length ≤ 200) ∧
    (∃ ls, dictGet out "labels" = some (.arr ls) ∧ ∀ v ∈ ls, ∃ t, v = .str t) := by
  cases hres : dictGet data "responsive" with
  | none => simp [validateFields, hres] at h
  | some rv =>
    simp only [validateFields, hres] at h
    injection h with h
    subst h
    exact validatedDict_shape data _ _ _ _ (confClamp_bounds _) (truncReason_length _)
      (strLabels_shape _)

theorem validateFields_error_shape (data : List (String × JValue)) (err : VError)
    (h : validateFields data = .error err) :
    err = .missingField "responsive" ∧ dictGet data "responsive" = none := by
  cases hres : dictGet data "responsive" with
  | none =>
    simp only [validateFields, hres] at h
    injection h with h
    exact ⟨h.symm, rfl⟩
  | some rv => simp [validateFields, hres] at h

theorem validateTop_error_shape (v : JValue) (err : VError)
    (h : validateTop v = .error err) : err = .missingField "responsive" := by
  cases v <;>
    try (simp only [validateTop] at h; injection h with h2; exact h2.symm)
  exact (validateFields_error_shape _ err h).1

theorem validate_output_ok_parsed (s : String) (out : List (String × JValue))
    (h : validate_output s = .ok out) :
    ∃ kvs, parsedCandidate s = some kvs ∧ validateFields kvs = .ok out := by
  rw [validate_output] at h
  split at h
  next => exact absurd h (by simp)
  next cand hspan =>
    split at h
    next v hp =>
      cases v with
      | obj kvs => exact ⟨_, by simp only [parsedCandidate, hspan, hp], h⟩
      | null => exact absurd h (by simp [validateTop])
      | bool b => exact absurd h (by simp [validateTop])
      | num q => exact absurd h (by simp [validateTop])
      | str t => exact absurd h (by simp [validateTop])
      | arr xs => exact absurd h (by simp [validateTop])
    next e hp =>
      split at h
      next v hp2 =>
        cases v with
        | obj kvs => exact ⟨_, by simp only [parsedCandidate, hspan, hp, hp2], h⟩
        | null => exact absurd h (by simp [validateTop])
        | bool b => exact absurd h (by simp [validateTop])
        | num q => exact absurd h (by simp [validateTop])
        | str t => exact absurd h (by simp [validateTop])
        | arr xs => exact absurd h (by simp [validateTop])
      next e2 hp2 => exact absurd h (by simp)

/-- Claim C1: whenever the output validator succeeds, the verdict's
`responsive` is a boolean, its `confidence` is a number clamped into
[0, 1], its `reason` is a string of at most 200 characters and its
`labels` is a list whose elements are all strings. -/
theorem validator_success_bounds (s : String) (out : List (String × JValue))
    (h : validate_output s = .ok out) :
    (∃ b, dictGet out "responsive" = some (.bool b)) ∧
    (∃ q, dictGet out "confidence" = some (.num q) ∧ 0 ≤ q ∧ q ≤ 1) ∧
    (∃ r, dictGet out "reason" = some (.str r) ∧ r.length ≤ 200) ∧
    (∃ ls, dictGet out "labels" = some (.arr ls) ∧ ∀ v ∈ ls, ∃ t, v = .str t) := by
  obtain ⟨kvs, _, hv⟩ := validate_output_ok_parsed s out h
  exact validateFields_ok_shape kvs out hv

/-- Witness for C1: the theorem applied to a concrete successful run of
the validator. -/
theorem validator_success_bounds_witness :
    (∃ b, dictGet [("responsive", JValue.bool true),
      ("confidence", JValue.num (Rat.divInt 1 2)),
      ("reason", JValue.str "No reason provided"),
      ("labels", JValue.arr [])] "responsive" = some (.bool b)) ∧
    (∃ q, dictGet [("responsive", JValue.bool true),
      ("confidence", JValue.num (Rat.divInt 1 2)),
      ("reason", JValue.str "No reason provided"),
      ("labels", JValue.arr [])] "confidence" = some (.num q) ∧ 0 ≤ q ∧ q ≤ 1) ∧
    (∃ r, dictGet [("responsive", JValue.bool true),
      ("confidence", JValue.num (Rat.divInt 1 2)),
      ("reason", JValue.str "No reason provided"),
      ("labels", JValue.arr [])] "reason" = some (.str r) ∧ r.length ≤ 200) ∧
    (∃ ls, dictGet [("responsive", JValue.bool true),
      ("confidence", JValue.num (Rat.divInt 1 2)),
      ("reason", JValue.str "No reason provided"),
      ("labels", JValue.arr [])] "labels" = some (.arr ls) ∧
      ∀ v ∈ ls, ∃ t, v = .str t) :=
  validator_success_bounds "\x7b\"responsive\": true\x7d" _ rfl

set_option maxRecDepth 4000 in
/-- Claim C2: on the spec's clamping test input — `responsive` 1,
`confidence` 1.5, a 250-character reason, `labels` a bare string — the
validator returns responsive=true, confidence clamped to 1.0, a reason
of exactly 200 characters ending in `...` (197 kept characters plus the
marker), and the string wrapped into a one-element label list. -/
theorem validator_clamping_example :
    validate_output c2Input =
      .ok [("responsive", .bool true), ("confidence", .num 1),
           ("reason", .str (String.mk (List.replicate 197 'x' ++ ['.', '.', '.']))),
           ("labels", .arr [.str "single"])] ∧
    (String.mk (List.replicate 197 'x' ++ ['.', '.', '.'])).length = 200 ∧
    (String.mk (List.replicate 197 'x' ++ ['.', '.', '.'])).data.drop 197 =
      ['.', '.', '.'] := by
  refine ⟨?_, rfl, rfl⟩
  rfl

/-! Characterization of the JSON-candidate span. -/

theorem lastIdxOf_eq_none (c : Char) (cs : List Char) :
    lastIdxOf c cs = none ↔ c ∉ cs := by
  induction cs with
  | nil => simp [lastIdxOf]
  | cons a rest ih =>
    rw [lastIdxOf]
    cases h : lastIdxOf c rest with
    | some j =>
      have hc : c ∈ rest := by
        by_contra hc
        rw [ih.mpr hc] at h
        exact Option.noConfusion h
      simp [List.mem_cons, hc]
    | none =>
      by_cases hac : a = c
      · simp [hac, List.mem_cons]
      · simp [hac, List.mem_cons, Ne.symm hac, ih.mp h]

theorem lastIdxOf_spec (c : Char) (cs : List Char) (j : Nat)
    (h : lastIdxOf c cs = some j) :
    cs.get? j = some c ∧ ∀ k, j < k → cs.get? k ≠ some c := by
  induction cs generalizing j with
  | nil => simp [lastIdxOf] at h
  | cons a rest ih =>
    rw [lastIdxOf] at h
    cases h2 : lastIdxOf c rest with
    | some j2 =>
      rw [h2] at h
      injection h with h
      subst h
      obtain ⟨hget, hmax⟩ := ih j2 h2
      refine ⟨by simpa using hget, ?_⟩
      intro k hk
      cases k with
      | zero => omega
      | succ k2 =>
        simp only [List.get?_cons_succ]
        exact hmax k2 (by omega)
    | none =>
      rw [h2] at h
      by_cases hac : a = c
      · rw [if_pos hac] at h
        injection h with h
        subst h
        refine ⟨by simp [hac], ?_⟩
        intro k hk
        cases k with
        | zero => omega
        | succ k2 =>
          simp only [List.get?_cons_succ]
          intro hkc
          exact absurd (List.get?_mem hkc) ((lastIdxOf_eq_none c rest).mp h2)
      · rw [if_neg hac] at h
        exact Option.noConfusion h

theorem braceSpan_shift (a : Char) (rest : List Char) (ha : a ≠ '\x7b') :
    (∃ i j, i < j ∧ (a :: rest).get? i = some '\x7b' ∧
      (a :: rest).get? j = some '\x7d') ↔
    (∃ i j, i < j ∧ rest.get? i = some '\x7b' ∧ rest.get? j = some '\x7d') := by
  constructor
  · rintro ⟨i, j, hij, hi, hj⟩
    cases i with
    | zero => simp at hi; exact absurd hi ha
    | succ i2 =>
      cases j with
      | zero => omega
      | succ j2 =>
        simp only [List.get?_cons_succ] at hi hj
        exact ⟨i2, j2, by omega, hi, hj⟩
  · rintro ⟨i, j, hij, hi, hj⟩
    exact ⟨i + 1, j + 1, by omega, by simpa using hi, by simpa using hj⟩

theorem braceSpan_head (rest : List Char) :
    (∃ i j, i < j ∧ ('\x7b' :: rest).get? i = some '\x7b' ∧
      ('\x7b' :: rest).get? j = some '\x7d') ↔ '\x7d' ∈ rest := by
  constructor
  · rintro ⟨i, j, hij, hi, hj⟩
    cases j with
    | zero => omega
    | succ j2 =>
      simp only [List.get?_cons_succ] at hj
      exact List.get?_mem hj
  · intro hmem
    obtain ⟨⟨k, hk⟩, hget⟩ := List.mem_iff_get.mp hmem
    refine ⟨0, k + 1, by omega, by simp, ?_⟩
    simp only [List.get?_cons_succ]
    rw [List.get?_eq_get hk, hget]

theorem extractSpan_head_eq (rest : List Char) :
    extractSpan ('\x7b' :: rest) =
      match lastIdxOf '\x7d' ('\x7b' :: rest) with
      | none => none
      | some j => some (('\x7b' :: rest).take (j + 1)) := by
  rw [extractSpan]
  simp [List.dropWhile_cons]

theorem extractSpan_cons_ne (a : Char) (rest : List Char) (ha : a ≠ '\x7b') :
    extractSpan (a :: rest) = extractSpan rest := by
  rw [extractSpan, extractSpan]
  simp [List.dropWhile_cons, ha]

theorem extractSpan_none_iff (cs : List Char) :
    extractSpan cs = none ↔
      ¬∃ i j, i < j ∧ cs.get? i = some '\x7b' ∧ cs.get? j = some '\x7d' := by
  induction cs with
  | nil => simp [extractSpan]
  | cons a rest ih =>
    by_cases ha : a = '\x7b'
    · subst ha
      rw [extractSpan_head_eq, braceSpan_head]
      cases h2 : lastIdxOf '\x7d' ('\x7b' :: rest) with
      | some j =>
        have : '\x7d' ∈ '\x7b' :: rest := by
          by_contra hc
          rw [(lastIdxOf_eq_none _ _).mpr hc] at h2
          exact Option.noConfusion h2
        have hmem : '\x7d' ∈ rest := by
          cases List.mem_cons.mp this with
          | inl heq => exact absurd heq.symm (by decide)
          | inr hm => exact hm
        simp [hmem]
      | none =>
        have hnot : '\x7d' ∉ '\x7b' :: rest := (lastIdxOf_eq_none _ _).mp h2
        simp only [List.mem_cons, not_or] at hnot
        simp [hnot.2]
    · rw [extractSpan_cons_ne a rest ha, braceSpan_shift a rest ha, ih]

theorem extractSpan_some_spec (cs cand : List Char)
    (h : extractSpan cs = some cand) :
    ∃ i j, i < j ∧ cs.get? i = some '\x7b' ∧ cs.get? j = some '\x7d' ∧
      (∀ k, k < i → cs.get? k ≠ some '\x7b') ∧
      (∀ k, j < k → cs.get? k ≠ some '\x7d') ∧
      cand = (cs.drop i).take (j + 1 - i) := by
  induction cs generalizing cand with
  | nil => simp [extractSpan] at h
  | cons a rest ih =>
    by_cases ha : a = '\x7b'
    · subst ha
      rw [extractSpan_head_eq] at h
      cases h2 : lastIdxOf '\x7d' ('\x7b' :: rest) with
      | none => rw [h2] at h; exact Option.noConfusion h
      | some j =>
        rw [h2] at h
        injection h with h
        obtain ⟨hget, hmax⟩ := lastIdxOf_spec '\x7d' ('\x7b' :: rest) j h2
        have hj0 : 0 < j := by
          cases j with
          | zero => simp at hget
          | succ j2 => omega
        refine ⟨0, j, hj0, by simp, hget, by omega, hmax, ?_⟩
        simpa using h.symm
    · rw [extractSpan_cons_ne a rest ha] at h
      obtain ⟨i, j, hij, hi, hj, hmin, hmax, hcand⟩ := ih cand h
      refine ⟨i + 1, j + 1, by omega, by simpa using hi, by simpa using hj, ?_, ?_, ?_⟩
      · intro k hk
        cases k with
        | zero => simpa using ha
        | succ k2 =>
          simp only [List.get?_cons_succ]
          exact hmin k2 (by omega)
      · intro k hk
        cases k with
        | zero => omega
        | succ k2 =>
          simp only [List.get?_cons_succ]
          exact hmax k2 (by omega)
      · have harith : j + 1 + 1 - (i + 1) = j + 1 - i := by omega
        simpa [harith] using hcand

theorem validate_output_noJson_iff (s : String) :
    validate_output s = .error .noJsonFound ↔
      extractSpan (stripFences s) = none := by
  constructor
  · intro h
    cases hspan : extractSpan (stripFences s) with
    | none => rfl
    | some cand =>
      rw [validate_output] at h
      cases hp : jsonParse cand with
      | ok v =>
        simp only [hspan, hp] at h
        exact absurd (validateTop_error_shape v _ h) (by simp)
      | error e =>
        cases hp2 : jsonParse (repairJson cand) with
        | ok v =>
          simp only [hspan, hp, hp2] at h
          exact absurd (validateTop_error_shape v _ h) (by simp)
        | error e2 =>
          simp only [hspan, hp, hp2] at h
          exact absurd h (by simp)
  · intro h
    rw [validate_output, h]

/-- Claim C3: the parsing stage of the validator fails with
`NoJsonFound` exactly when the fence-stripped response has no
brace-delimited span; otherwise the candidate is the greedy span from
the first opening brace to the last closing brace, it is parsed
strictly, on failure exactly one repair pass is applied and re-parsed,
and if that also fails the result is `UnparseableJson` carrying the
original parse error. -/
theorem validator_parse_stage (s : String) :
    ((validate_output s = .error .noJsonFound) ↔
      ¬∃ i j, i < j ∧ (stripFences s).get? i = some '\x7b' ∧
        (stripFences s).get? j = some '\x7d') ∧
    (∀ cand, extractSpan (stripFences s) = some cand →
      (∃ i j, i < j ∧ (stripFences s).get? i = some '\x7b' ∧
        (stripFences s).get? j = some '\x7d' ∧
        (∀ k, k < i → (stripFences s).get? k ≠ some '\x7b') ∧
        (∀ k, j < k → (stripFences s).get? k ≠ some '\x7d') ∧
        cand = ((stripFences s).drop i).take (j + 1 - i)) ∧
      (∀ v, jsonParse cand = .ok v → validate_output s = validateTop v) ∧
      (∀ e, jsonParse cand = .error e →
        (∀ v, jsonParse (repairJson cand) = .ok v →
          validate_output s = validateTop v) ∧
        (∀ e2, jsonParse (repairJson cand) = .error e2 →
          validate_output s = .error (.unparseableJson e)))) := by
  constructor
  · exact (validate_output_noJson_iff s).trans (extractSpan_none_iff _)
  · intro cand hspan
    refine ⟨?_, ?_, ?_⟩
    · obtain ⟨i, j, hij, hi, hj, hmin, hmax, hcand⟩ :=
        extractSpan_some_spec _ cand hspan
      exact ⟨i, j, hij, hi, hj, hmin, hmax, hcand⟩
    · intro v hp
      rw [validate_output]
      simp only [hspan, hp]
    · intro e hp
      constructor
      · intro v hp2
        rw [validate_output]
        simp only [hspan, hp, hp2]
      · intro e2 hp2
        rw [validate_output]
        simp only [hspan, hp, hp2]

/-- Witness for C3: a concrete response whose candidate span fails the
strict parse (single quotes, trailing comma) and succeeds after the
repair pass, with all the theorem's parsing-stage equations discharged
on it. -/
theorem validator_parse_stage_witness :
    (extractSpan (stripFences "x\x7b\x27responsive\x27: true,\x7d y") =
      some "\x7b\x27responsive\x27: true,\x7d".data) ∧
    (jsonParse "\x7b\x27responsive\x27: true,\x7d".data =
      .error "expecting property name enclosed in double quotes") ∧
    (jsonParse (repairJson "\x7b\x27responsive\x27: true,\x7d".data) =
      .ok (.obj [("responsive", .bool true)])) ∧
    validate_output "x\x7b\x27responsive\x27: true,\x7d y" =
      validateTop (.obj [("responsive", .bool true)]) :=
  ⟨rfl, rfl, rfl,
    (((validator_parse_stage "x\x7b\x27responsive\x27: true,\x7d y").2 _
      rfl).2.2 _ rfl).1 _ rfl⟩

/-- Claim C4: after a successful parse, the validator fails with
`MissingField("responsive")` exactly when the key is absent; a present
`responsive` is coerced by Python truthiness and the verdict succeeds;
`confidence`, `reason` and `labels` each default independently (0.5,
"No reason provided", the empty list); and the single-quoted input with
only `responsive` and `confidence` yields exactly the defaulted
verdict. -/
theorem validator_missing_and_defaults :
    (∀ data : List (String × JValue),
      ((validateFields data = .error (.missingField "responsive")) ↔
        dictGet data "responsive" = none) ∧
      (∀ rv, dictGet data "responsive" = some rv →
        ∃ out, validateFields data = .ok out ∧
          dictGet out "responsive" = some (.bool (pyTruthy rv))) ∧
      (∀ out, validateFields data = .ok out →
        (dictGet data "confidence" = none →
          dictGet out "confidence" = some (.num (Rat.divInt 1 2))) ∧
        (dictGet data "reason" = none →
          dictGet out "reason" = some (.str "No reason provided")) ∧
        (dictGet data "labels" = none →
          dictGet out "labels" = some (.arr [])))) ∧
    validate_output "\x7b\x27responsive\x27: true, \x27confidence\x27: 0.8\x7d" =
      .ok [("responsive", .bool true), ("confidence", .num (Rat.divInt 4 5)),
           ("reason", .str "No reason provided"), ("labels", .arr [])] := by
  constructor
  · intro data
    refine ⟨⟨fun h => (validateFields_error_shape data _ h).2, fun h => by
      simp [validateFields, h]⟩, ?_, ?_⟩
    · intro rv hres
      cases hv : validateFields data with
      | error err =>
        have := (validateFields_error_shape data _ hv).2
        rw [hres] at this
        exact Option.noConfusion this
      | ok out =>
        refine ⟨out, rfl, ?_⟩
        simp only [validateFields, hres] at hv
        injection hv with hv
        subst hv
        rw [dictGet_dictSet_ne _ _ _ _ (by decide), dictGet_dictSet_ne _ _ _ _ (by decide),
          dictGet_dictSet_ne _ _ _ _ (by decide), dictGet_dictSet_self]
    · intro out hok
      cases hres : dictGet data "responsive" with
      | none => simp [validateFields, hres] at hok
      | some rv =>
        simp only [validateFields, hres] at hok
        injection hok with hok
        subst hok
        refine ⟨?_, ?_, ?_⟩
        · intro hconf
          rw [dictGet_dictSet_ne _ _ _ _ (by decide),
            dictGet_dictSet_ne _ _ _ _ (by decide), dictGet_dictSet_self,
            dictGet_dictSet_ne _ _ _ _ (by decide), hconf]
          rfl
        · intro hreas
          rw [dictGet_dictSet_ne _ _ _ _ (by decide), dictGet_dictSet_self,
            dictGet_dictSet_ne _ _ _ _ (by decide),
            dictGet_dictSet_ne _ _ _ _ (by decide), hreas]
          rfl
        · intro hlab
          rw [dictGet_dictSet_self, dictGet_dictSet_ne _ _ _ _ (by decide),
            dictGet_dictSet_ne _ _ _ _ (by decide),
            dictGet_dictSet_ne _ _ _ _ (by decide), hlab]
          rfl
  · rfl

/-- Witness for C4: the theorem's branches discharged on concrete
dicts — an empty dict (missing field), a numeric `responsive` (truthy
coercion), and a minimal dict exercising all three defaults. -/
theorem validator_missing_and_defaults_witness :
    (validateFields [] = .error (.missingField "responsive")) ∧
    (∃ out, validateFields [("responsive", JValue.num (qOfNat 1))] = .ok out ∧
      dictGet out "responsive" = some (.bool (pyTruthy (.num (qOfNat 1))))) ∧
    (dictGet [("responsive", JValue.bool true),
      ("confidence", JValue.num (Rat.divInt 1 2)),
      ("reason", JValue.str "No reason provided"),
      ("labels", JValue.arr [])] "confidence" = some (.num (Rat.divInt 1 2))) :=
  ⟨(validator_missing_and_defaults.1 []).1.mpr rfl,
   (validator_missing_and_defaults.1 [("responsive", JValue.num (qOfNat 1))]).2.1
     (.num (qOfNat 1)) rfl,
   ((validator_missing_and_defaults.1 [("responsive", JValue.bool true)]).2.2
     [("responsive", JValue.bool true),
      ("confidence", JValue.num (Rat.divInt 1 2)),
      ("reason", JValue.str "No reason provided"),
      ("labels", JValue.arr [])] rfl).1 rfl⟩

/-- Counterexample to claim C5: on a response whose JSON carries an
additional key `extra`, the returned verdict contains that key — the
validator returns the whole parsed dict, not only the four validated
fields. -/
theorem validator_only_four_fields_counterexample :
    validate_output "\x7b\"responsive\": true, \"extra\": 1\x7d" =
      .ok [("responsive", .bool true), ("extra", .num 1),
           ("confidence", .num (Rat.divInt 1 2)),
           ("reason", .str "No reason provided"), ("labels", .arr [])] ∧
    ¬(∀ kv ∈ [("responsive", JValue.bool true), ("extra", JValue.num 1),
        ("confidence", JValue.num (Rat.divInt 1 2)),
        ("reason", JValue.str "No reason provided"),
        ("labels", JValue.arr [])],
      kv.1 ∈ (["responsive", "confidence", "reason", "labels"] : List String)) :=
  ⟨rfl, by decide⟩

/-- Claim C5 as amended: a successful verdict always contains the four
validated fields, and every other key of the parsed JSON object is
passed through into the verdict with its original value. -/
theorem validator_fields_passthrough (s : String) (out : List (String × JValue))
    (h : validate_output s = .ok out) :
    ∃ kvs, parsedCandidate s = some kvs ∧ validateFields kvs = .ok out ∧
      (∀ k : String,
        k ∉ (["responsive", "confidence", "reason", "labels"] : List String) →
        dictGet out k = dictGet kvs k) ∧
      (∀ k ∈ (["responsive", "confidence", "reason", "labels"] : List String),
        (dictGet out k).isSome = true) := by
  obtain ⟨kvs, hc, hv⟩ := validate_output_ok_parsed s out h
  refine ⟨kvs, hc, hv, ?_, ?_⟩
  · intro k hk
    have h4 : ¬k = "responsive" ∧ ¬k = "confidence" ∧ ¬k = "reason" ∧ ¬k = "labels" := by
      simpa [not_or] using hk
    cases hres : dictGet kvs "responsive" with
    | none => simp [validateFields, hres] at hv
    | some rv =>
      simp only [validateFields, hres] at hv
      injection hv with hv
      subst hv
      rw [dictGet_dictSet_ne _ _ _ _ h4.2.2.2, dictGet_dictSet_ne _ _ _ _ h4.2.2.1,
        dictGet_dictSet_ne _ _ _ _ h4.2.1, dictGet_dictSet_ne _ _ _ _ h4.1]
  · obtain ⟨⟨b, hb⟩, ⟨q, hq, _⟩, ⟨r, hr, _⟩, ⟨ls, hl, _⟩⟩ :=
      validateFields_ok_shape kvs out hv
    intro k hk
    simp only [List.mem_cons, List.not_mem_nil, or_false] at hk
    rcases hk with h1 | h1 | h1 | h1
    · subst h1; rw [hb]; rfl
    · subst h1; rw [hq]; rfl
    · subst h1; rw [hr]; rfl
    · subst h1; rw [hl]; rfl

/-- Witness for C5's amended theorem: the pass-through equation
evaluated at the `extra` key of a concrete verdict. -/
theorem validator_fields_passthrough_witness :
    validate_output "\x7b\"responsive\": true, \"extra\": 1\x7d" =
      .ok [("responsive", .bool true), ("extra", .num 1),
           ("confidence", .num (Rat.divInt 1 2)),
           ("reason", .str "No reason provided"), ("labels", .arr [])] ∧
    dictGet [("responsive", JValue.bool true), ("extra", JValue.num 1),
      ("confidence", JValue.num (Rat.divInt 1 2)),
      ("reason", JValue.str "No reason provided"),
      ("labels", JValue.arr [])] "extra" = some (.num 1) := by
  refine ⟨rfl, ?_⟩
  obtain ⟨kvs, hc, hv, hpass, hsome⟩ :=
    validator_fields_passthrough "\x7b\"responsive\": true, \"extra\": 1\x7d"
      [("responsive", .bool true), ("extra", .num 1),
       ("confidence", .num (Rat.divInt 1 2)),
       ("reason", .str "No reason provided"), ("labels", .arr [])] rfl
  rw [hpass "extra" (by decide)]
  have hkvs : kvs = [("responsive", JValue.bool true), ("extra", JValue.num 1)] := by
    have : parsedCandidate "\x7b\"responsive\": true, \"extra\": 1\x7d" =
      some [("responsive", JValue.bool true), ("extra", JValue.num 1)] := rfl
    rw [this] at hc
    injection hc with hc
    exact hc.symm
  rw [hkvs]
  rfl

/-- Counterexample to claim C7: constructing the prompt builder over an
existing few-shot file whose content is not valid JSON raises
`ValueError` instead of falling back to the built-in defaults. -/
theorem fewshot_unparseable_counterexample :
    promptBuilderInit (some "not json") =
      .error ("Invalid JSON: " ++ "expecting value") :=
  rfl

/-- Claim C7 as amended: when the few-shot file is absent, construction
falls back to the built-in default system prompt and schema with zero
examples; but when the file exists with content that is not valid JSON,
construction raises an invalid-JSON error rather than falling back. -/
theorem fewshot_missing_falls_back (c : String) (e : String)
    (h : jsonParse c.data = .error e) :
    promptBuilderInit none =
      .ok { version := .str "1.0", system := .str defaultSystemPrompt,
            examples := .arr [], output_schema := defaultSchema } ∧
    promptBuilderInit (some c) = .error ("Invalid JSON: " ++ e) := by
  refine ⟨rfl, ?_⟩
  rw [promptBuilderInit, load_fewshot]
  simp only [h]

/-- Witness for C7's amended theorem: both branches at a concrete
unparseable content. -/
theorem fewshot_missing_falls_back_witness :
    promptBuilderInit none =
      .ok { version := .str "1.0", system := .str defaultSystemPrompt,
            examples := .arr [], output_schema := defaultSchema } ∧
    promptBuilderInit (some "not json") =
      .error ("Invalid JSON: " ++ "expecting value") :=
  fewshot_missing_falls_back "not json" "expecting value" rfl

/-- Claim C10: `create_classification` always succeeds, stores the row,
and stores as `reason` exactly the first 200 characters of the given
reason — the full string whenever it already fits. -/
theorem create_classification_truncates (db : List ClassificationRow)
    (email_id : Nat) (run_id model prompt_version : String)
    (responsive_pred : Bool) (confidence : ℚ) (labels : List String)
    (reason : String) (params : Option JValue) (status : String) :
    (create_classification db email_id run_id model prompt_version
      responsive_pred confidence labels reason params status).2.reason =
        String.mk (reason.data.take 200) ∧
    (create_classification db email_id run_id model prompt_version
      responsive_pred confidence labels reason params status).2.reason.length ≤ 200 ∧
    (reason.length ≤ 200 →
      (create_classification db email_id run_id model prompt_version
        responsive_pred confidence labels reason params status).2.reason = reason) ∧
    (create_classification db email_id run_id model prompt_version
      responsive_pred confidence labels reason params status).1 =
        db ++ [(create_classification db email_id run_id model prompt_version
          responsive_pred confidence labels reason params status).2] := by
  refine ⟨rfl, ?_, ?_, rfl⟩
  · show (String.mk (reason.data.take 200)).length ≤ 200
    have h1 : (String.mk (reason.data.take 200)).length =
      (reason.data.take 200).length := rfl
    rw [h1, List.length_take]
    omega
  · intro hlen
    show String.mk (reason.data.take 200) = reason
    have h1 : reason.data.length ≤ 200 := hlen
    rw [List.take_of_length_le h1]

/-- Witness for C10: a short reason is stored unchanged. -/
theorem create_classification_truncates_witness :
    (create_classification [] 1 "r" "m" "v" true 1 [] "short" none
      "completed").2.reason = "short" :=
  (create_classification_truncates [] 1 "r" "m" "v" true 1 [] "short" none
    "completed").2.2.1 (by decide)

/-- Claim C9: starting from a cold cache, two `list_models` calls whose
times fall within one TTL window issue exactly one upstream request —
the first fetches and caches, the second returns the cached list
unchanged without a request — and after `clear_cache` the next call
always issues a request. -/
theorem model_cache_single_fetch (st : ClientState) (t1 t2 : ℚ)
    (ms : List MInfo) (f2 : FetchOutcome) (hcache : st.model_cache = none)
    (h12 : t1 ≤ t2) (httl : t2 - t1 < cacheTtl) :
    (list_models st t1 (.ok ms)).2.2 = true ∧
    (list_models st t1 (.ok ms)).1 = .ok ms ∧
    (list_models (list_models st t1 (.ok ms)).2.1 t2 f2).2.2 = false ∧
    (list_models (list_models st t1 (.ok ms)).2.1 t2 f2).1 = .ok ms ∧
    (list_models (list_models st t1 (.ok ms)).2.1 t2 f2).2.1 =
      (list_models st t1 (.ok ms)).2.1 ∧
    (∀ (st2 : ClientState) (t : ℚ) (f : FetchOutcome),
      (list_models (clear_cache st2) t f).2.2 = true) := by
  obtain ⟨mc, ts⟩ := st
  simp only at hcache
  subst hcache
  have h1 : list_models ⟨none, ts⟩ t1 (.ok ms) =
      (.ok ms, ⟨some ms, some t1⟩, true) := rfl
  have h2 : list_models (⟨some ms, some t1⟩ : ClientState) t2 f2 =
      (.ok ms, ⟨some ms, some t1⟩, false) := by
    simp only [list_models]
    rw [if_pos httl]
  rw [h1, h2]
  refine ⟨rfl, rfl, rfl, rfl, rfl, ?_⟩
  intro st2 t f
  cases f <;> rfl

/-- Witness for C9: a cold client at time 0, a second call at time 1. -/
theorem model_cache_single_fetch_witness :
    (list_models ⟨none, none⟩ 0 (.ok [])).2.2 = true ∧
    (list_models (list_models ⟨none, none⟩ 0 (.ok [])).2.1 1
      .connectError).2.2 = false ∧
    (list_models (list_models ⟨none, none⟩ 0 (.ok [])).2.1 1
      .connectError).1 = .ok [] ∧
    (list_models (clear_cache ⟨some [], some 0⟩) 2 .timeoutError).2.2 = true := by
  obtain ⟨w1, _, w3, w4, _, w6⟩ := model_cache_single_fetch ⟨none, none⟩ 0 1 []
    .connectError rfl (by norm_num) (by norm_num [cacheTtl])
  exact ⟨w1, w3, w4, w6 ⟨some [], some 0⟩ 2 .timeoutError⟩

/-! Email-store lemmas. -/

theorem get_email_by_sha256_none_iff (db : EmailDb) (pid : Nat) (h : String) :
    get_email_by_sha256 db pid h = none ↔
      ∀ e ∈ db.emails, ¬(e.project_id = pid ∧ e.sha256 = h) := by
  rw [get_email_by_sha256, List.find?_eq_none]
  constructor
  · intro hall e he hc
    have := hall e he
    simp [hc.1, hc.2] at this
  · intro hall e he
    have := hall e he
    simp only [Bool.and_eq_true, beq_iff_eq, not_and] at this ⊢
    intro h1 h2
    exact this h1 h2

theorem get_email_by_sha256_some (db : EmailDb) (pid : Nat) (h : String)
    (e : EmailRow) (hs : get_email_by_sha256 db pid h = some e) :
    e ∈ db.emails ∧ e.project_id = pid ∧ e.sha256 = h := by
  refine ⟨List.mem_of_find?_eq_some hs, ?_⟩
  have := List.find?_some hs
  simpa using this

theorem pushRow_wf (db : EmailDb) (row : EmailRow) (hid : row.id = db.nextId)
    (hnew : ∀ e ∈ db.emails, ¬(e.project_id = row.project_id ∧ e.sha256 = row.sha256))
    (hwf : dbWf db) : dbWf ⟨db.emails ++ [row], db.nextId + 1⟩ := by
  obtain ⟨hu, hf⟩ := hwf
  constructor
  · rw [hashUnique, List.pairwise_append]
    refine ⟨hu, List.pairwise_singleton _ _, ?_⟩
    intro a ha b hb
    rw [List.mem_singleton] at hb
    subst hb
    intro hc
    exact hnew a ha hc
  · intro e he
    rcases List.mem_append.mp he with h1 | h1
    · have := hf e h1
      simp only
      omega
    · rw [List.mem_singleton] at h1
      subst h1
      simp only [hid]
      omega
theorem bulk_create_emails_spec (pid : Nat) (hf : String → String)
    (items : List BulkEmailData) (db : EmailDb) :
    (bulk_create_emails db pid items hf).2.1 +
      (bulk_create_emails db pid items hf).2.2 = items.length ∧
    (bulk_create_emails db pid items hf).1.emails.length =
      db.emails.length + (bulk_create_emails db pid items hf).2.1 ∧
    (dbWf db → dbWf (bulk_create_emails db pid items hf).1) := by
  induction items generalizing db with
  | nil => exact ⟨rfl, rfl, fun h => h⟩
  | cons item rest ih =>
    rw [bulk_create_emails]
    cases hfind : get_email_by_sha256 db pid (resolveSha item.sha item.body_text hf) with
    | some e =>
      obtain ⟨ih1, ih2, ih3⟩ := ih db
      rcases hX : bulk_create_emails db pid rest hf with ⟨db1, created, dups⟩
      rw [hX] at ih1 ih2 ih3
      simp only [hfind, hX]
      simp only at ih1 ih2 ih3 ⊢
      refine ⟨by simp only [List.length_cons]; omega, by omega, ih3⟩
    | none =>
      set row : EmailRow :=
        { id := db.nextId, project_id := pid, path := item.path,
          sha256 := resolveSha item.sha item.body_text hf,
          subject := item.subject, from_addr := item.from_addr,
          to_addr := item.to_addr, date := item.date,
          body_text := item.body_text,
          meta_json := jsonDumpsC (item.metadata_dict.getD (.obj [])) } with hrow
      obtain ⟨ih1, ih2, ih3⟩ := ih ⟨db.emails ++ [row], db.nextId + 1⟩
      rcases hX : bulk_create_emails ⟨db.emails ++ [row], db.nextId + 1⟩ pid rest hf
        with ⟨db1, created, dups⟩
      rw [hX] at ih1 ih2 ih3
      simp only [hfind, hX]
      simp only [List.length_append, List.length_singleton] at ih2
      simp only at ih1 ih2 ih3 ⊢
      refine ⟨by simp only [List.length_cons]; omega, by omega, ?_⟩
      intro hwf
      refine ih3 (pushRow_wf db row rfl ?_ hwf)
      exact fun e he => (get_email_by_sha256_none_iff db pid _).mp hfind e he

/-- Claim C8: duplicate detection is per-project and keyed solely by
content hash.  Lookup succeeds exactly on a matching (project, hash)
pair; creating an email whose resolved hash already exists in the
project inserts nothing and returns the stored row; a fresh (project,
hash) pair — in particular the same content under another project —
appends one new, distinct row; and both `create_email` and
`bulk_create_emails` preserve at-most-one-row-per-(project, hash)
together with the batch counting `created + duplicates = total`. -/
theorem email_dedup_per_project (db : EmailDb) (pid : Nat)
    (path body : String) (sha : Option String)
    (subj fa ta dt : Option String) (meta : Option JValue)
    (hf : String → String) :
    (get_email_by_sha256 db pid (resolveSha sha body hf) = none ↔
      ∀ e ∈ db.emails, ¬(e.project_id = pid ∧ e.sha256 = resolveSha sha body hf)) ∧
    (∀ e, get_email_by_sha256 db pid (resolveSha sha body hf) = some e →
      create_email db pid path body sha subj fa ta dt meta hf = (db, e) ∧
      e ∈ db.emails ∧ e.project_id = pid ∧ e.sha256 = resolveSha sha body hf) ∧
    (get_email_by_sha256 db pid (resolveSha sha body hf) = none → idsFresh db →
      (create_email db pid path body sha subj fa ta dt meta hf).1.emails =
        db.emails ++ [(create_email db pid path body sha subj fa ta dt meta hf).2] ∧
      (create_email db pid path body sha subj fa ta dt meta hf).2 ∉ db.emails ∧
      (create_email db pid path body sha subj fa ta dt meta hf).2.project_id = pid ∧
      (create_email db pid path body sha subj fa ta dt meta hf).2.sha256 =
        resolveSha sha body hf) ∧
    (dbWf db → dbWf (create_email db pid path body sha subj fa ta dt meta hf).1) ∧
    (∀ items : List BulkEmailData,
      (bulk_create_emails db pid items hf).2.1 +
        (bulk_create_emails db pid items hf).2.2 = items.length ∧
      (bulk_create_emails db pid items hf).1.emails.length =
        db.emails.length + (bulk_create_emails db pid items hf).2.1 ∧
      (dbWf db → dbWf (bulk_create_emails db pid items hf).1)) := by
  refine ⟨get_email_by_sha256_none_iff db pid _, ?_, ?_, ?_,
    fun items => bulk_create_emails_spec pid hf items db⟩
  · intro e hsome
    refine ⟨?_, get_email_by_sha256_some db pid _ e hsome⟩
    rw [create_email, hsome]
  · intro hnone hfresh
    rw [create_email, hnone]
    refine ⟨rfl, ?_, rfl, rfl⟩
    intro hmem
    have := hfresh _ hmem
    simp at this
  · intro hwf
    rw [create_email]
    cases hfind : get_email_by_sha256 db pid (resolveSha sha body hf) with
    | some e => exact hwf
    | none =>
      refine pushRow_wf db _ rfl ?_ hwf
      exact fun e he => (get_email_by_sha256_none_iff db pid _).mp hfind e he

/-- Witness for C8: over a store holding one email (project 1, hash
"h"), re-creating the same content in project 1 returns the stored row
and changes nothing; creating it under project 2 yields a distinct new
row; a one-item bulk upload of the same content into project 1 counts
one duplicate and zero creations. -/
theorem email_dedup_per_project_witness :
    create_email wDb 1 "b.txt" "b" (some "h") none none none none none
      (fun _ => "h") = (wDb, wRow) ∧
    (create_email wDb 2 "b.txt" "b" (some "h") none none none none none
      (fun _ => "h")).2 ∉ wDb.emails ∧
    (bulk_create_emails wDb 1 [wItem] (fun _ => "h")).2.1 = 0 ∧
    (bulk_create_emails wDb 1 [wItem] (fun _ => "h")).2.1 +
      (bulk_create_emails wDb 1 [wItem] (fun _ => "h")).2.2 = 1 := by
  refine ⟨?_, ?_, rfl, ?_⟩
  · exact ((email_dedup_per_project wDb 1 "b.txt" "b" (some "h") none none
      none none none (fun _ => "h")).2.1 wRow rfl).1
  · exact ((email_dedup_per_project wDb 2 "b.txt" "b" (some "h") none none
      none none none (fun _ => "h")).2.2.1 rfl
      (by intro e he; simp [wDb, wRow] at he; subst he; decide)).2.1
  · exact ((email_dedup_per_project wDb 1 "c.txt" "b" (some "h") none none
      none none none (fun _ => "h")).2.2.2.2 [wItem]).1

/-! Rendering lemmas for the prompt builder. -/

theorem appendNeNil (xs ys : List String) (h : ys ≠ []) : xs ++ ys ≠ [] := by
  intro hh
  exact h (List.append_eq_nil.mp hh).2

theorem joinNL_cons (s : String) (rest : List String) (h : rest ≠ []) :
    joinNL (s :: rest) = s ++ "\n" ++ joinNL rest := by
  cases rest with
  | nil => exact absurd rfl h
  | cons a t => rfl

theorem joinNL_append (xs ys : List String) (h : ys ≠ []) :
    joinNL (xs ++ ys) = lineCat xs ++ joinNL ys := by
  induction xs with
  | nil => rw [List.nil_append, lineCat, String.empty_append]
  | cons x t ih =>
    rw [List.cons_append, joinNL_cons x (t ++ ys) (appendNeNil t ys h), ih,
      lineCat]
    simp only [String.append_assoc]

theorem lineCat_append (xs ys : List String) :
    lineCat (xs ++ ys) = lineCat xs ++ lineCat ys := by
  induction xs with
  | nil => rw [List.nil_append, lineCat, String.empty_append]
  | cons x t ih =>
    rw [List.cons_append, lineCat, lineCat, ih]
    simp only [String.append_assoc]

theorem lineCat_if (c : Bool) (x : String) :
    lineCat (if c then [x] else []) = (if c then x ++ "\n" else "") := by
  cases c <;> simp [lineCat, String.append_empty]

theorem lineCat_exampleLines (i : Nat) (ex : FewshotEx) :
    lineCat (exampleLines i ex) = exampleSpec i ex := by
  rw [exampleLines, exampleSpec]
  cases hs : optTruthy ex.sender <;> cases hb : optTruthy ex.body <;>
    simp only [lineCat, lineCat_append, lineCat_if, hs, hb, if_false, if_true,
      Bool.false_eq_true, Bool.true_eq_false, String.append_assoc,
      String.append_empty, String.empty_append]

theorem lineCat_examplesLines (exs : List FewshotEx) : ∀ i,
    lineCat (examplesLines i exs) = examplesSpec i exs := by
  induction exs with
  | nil => intro i; rfl
  | cons ex rest ih =>
    intro i
    rw [examplesLines, examplesSpec, lineCat_append, lineCat_exampleLines, ih]

theorem orElsePy_eq_truthy (o : Option String) (d : String) :
    orElsePy o d = if optTruthy o then o.getD "" else d := by
  cases o with
  | none => simp [orElsePy, optTruthy]
  | some s => by_cases hs : s = "" <;> simp [orElsePy, optTruthy, hs]

/-- Claim C6: for every email and configuration, the compiled prompt is
total in the email's optional fields and renders exactly as the
specification's fixed construction order describes: system instruction,
worked-JSON output shape, each few-shot example in order with its body
truncated to 500 characters, then the target email with `N/A` for a
missing subject, From/To/Date lines only when the field is present and
nonempty, the full untruncated body, and the terminal
output-JSON-only instruction. -/
theorem build_renders_as_spec (sp : String) (exs : List FewshotEx)
    (email : EmailRec) : build sp exs email = buildSpec sp exs email := by
  have hne4 : (["", "Body: " ++ email.body_text, "",
      "Classification (output JSON only):"] : List String) ≠ [] := by simp
  rw [build, buildParts, joinNL_append _ _ hne4, buildSpec]
  cases hE : exs.isEmpty <;> cases h1 : optTruthy email.from_addr <;>
    cases h2 : optTruthy email.to_addr <;> cases h3 : optTruthy email.date <;>
    simp only [lineCat, lineCat_if, lineCat_append, lineCat_examplesLines,
      orElsePy_eq_truthy, joinNL, hE, h1, h2, h3, if_false, if_true, Bool.false_eq_true,
      Bool.true_eq_false, List.append_eq, List.nil_append, List.append_nil,
      List.append_assoc, String.append_assoc, String.append_empty,
      String.empty_append]
